import Mathlib

/-!
Verification of the orphaned-record reclamation migration
(`securedrop/alembic/versions/3da3fcab826a_delete_orphaned_submissions.py`).

The migration selects submission and reply rows whose `source_id` is NULL or
references no row of the `sources` table, deletes each selected row, and
enqueues a secure-erase task for the row's backing file.  Per-row file
resolution may fail with `NoFileFoundException` (handled by deleting the row
again), `TooManyFilesException` (ignored), or an unclassified error; a single
outer handler around both loops swallows unclassified errors unless
`raise_errors` is set.

The embedding below models the database tables as lists of rows, the SQL
query with SQL three-valued logic (so NULLs inside `NOT IN` behave as in
SQLite), the storage collaborator `path_without_filesystem_id` as a function
into an explicit result type, and the run of `upgrade()` as a fold producing
the final tables, the enqueued task list, an event trace, and an error flag.
-/

namespace SecureDrop

/-- SQL three-valued logic: TRUE, FALSE, NULL (unknown). -/
inductive SqlBool where
  | t
  | f
  | n
deriving DecidableEq, Repr

/-- SQL equality on nullable integer values: comparing with NULL yields NULL. -/
def sqlEqOpt : Option Int → Option Int → SqlBool
  | some a, some b => if a = b then .t else .f
  | _, _ => .n

/-- SQL OR: TRUE dominates, otherwise NULL dominates. -/
def sqlOr : SqlBool → SqlBool → SqlBool
  | .t, _ => .t
  | _, .t => .t
  | .n, _ => .n
  | _, .n => .n
  | .f, .f => .f

/-- SQL NOT. -/
def sqlNot : SqlBool → SqlBool
  | .t => .f
  | .f => .t
  | .n => .n

/-- `x IN (v1, ..., vn)`: the SQL OR of the elementwise equalities
(FALSE for the empty list). -/
def sqlIn (x : Option Int) (s : List (Option Int)) : SqlBool :=
  s.foldr (fun v acc => sqlOr (sqlEqOpt x v) acc) .f

/-- A WHERE clause keeps a row only when its condition is TRUE
(not FALSE and not NULL). -/
def SqlBool.isTrue : SqlBool → Bool
  | .t => true
  | _ => false

/-- A submission or reply row: `id` (primary key), `filename`, nullable
`source_id`. -/
structure Row where
  id : Int
  filename : String
  source_id : Option Int
deriving DecidableEq, Repr

/-- The condition of the first branch of the query:
`source_id NOT IN (SELECT id FROM sources)` evaluated as TRUE. -/
def notInSources (sources : List (Option Int)) (r : Row) : Bool :=
  (sqlNot (sqlIn r.source_id sources)).isTrue

/-- The condition of the second branch of the query: `source_id IS NULL`. -/
def isNullSource (r : Row) : Bool :=
  r.source_id.isNone

/-- Embedding of `raw_sql_grab_orphaned_objects` followed by `fetchall()`:
the UNION of the rows where `source_id NOT IN (SELECT id FROM sources)` is
TRUE and the rows where `source_id IS NULL` (deduplicated: a row already
produced by the first branch is not produced again by the second). -/
def raw_sql_grab_orphaned_objects (sources : List (Option Int))
    (table : List Row) : List Row :=
  table.filter (notInSources sources) ++
    table.filter (fun r => isNullSource r && !notInSources sources r)

/-- Outcome of `app.storage.path_without_filesystem_id(filename)`:
a resolved path, `NoFileFoundException`, `TooManyFilesException`,
or an unclassified error. -/
inductive ResolveResult where
  | ok (path : String)
  | noFileFound
  | tooManyFiles
  | err
deriving DecidableEq, Repr

/-- Whether a resolution outcome is the unclassified error. -/
def isErr : ResolveResult → Bool
  | .err => true
  | _ => false

/-- Which table a loop iteration works on. -/
inductive Tbl where
  | submissions
  | replies
deriving DecidableEq, Repr

/-- Observable side effects of the run, in order: row deletions
(`DELETE FROM {table} WHERE id=:id`) and erase-task enqueues
(`rq_worker_queue.enqueue(srm, file_path)`).  An enqueue event records the
table and id of the row being processed when it fired. -/
inductive Event where
  | del (t : Tbl) (i : Int)
  | enq (t : Tbl) (i : Int) (path : String)
deriving DecidableEq, Repr

/-- `DELETE FROM table WHERE id=:i`: removes every row with that id. -/
def deleteRow (table : List Row) (i : Int) : List Row :=
  table.filter (fun r => r.id != i)

/-- State threaded through one `for` loop of `upgrade()`: the loop's table,
the erase-task queue, the event trace so far, and whether an unclassified
error has escaped the per-row handlers. -/
structure LoopState where
  table : List Row
  tasks : List String
  trace : List Event
  errored : Bool
deriving Repr

/-- One iteration of a `for` loop of `upgrade()`.  The row is first deleted;
then the filename is resolved: on success the erase task is enqueued, on
`NoFileFoundException` the row is deleted again, on `TooManyFilesException`
nothing further happens, and on an unclassified error the exception escapes
(recorded in `errored`). -/
def processRow (resolve : String → ResolveResult) (t : Tbl)
    (st : LoopState) (r : Row) : LoopState :=
  let st1 : LoopState :=
    { st with table := deleteRow st.table r.id
              trace := st.trace ++ [Event.del t r.id] }
  match resolve r.filename with
  | .ok p =>
      { st1 with tasks := st1.tasks ++ [p]
                 trace := st1.trace ++ [Event.enq t r.id p] }
  | .noFileFound =>
      { st1 with table := deleteRow st1.table r.id
                 trace := st1.trace ++ [Event.del t r.id] }
  | .tooManyFiles => st1
  | .err => { st1 with errored := true }

/-- A whole `for` loop of `upgrade()` over the fetched batch.  An
unclassified error escapes the loop: no later row of the batch is
processed. -/
def processLoop (resolve : String → ResolveResult) (t : Tbl)
    (st : LoopState) : List Row → LoopState
  | [] => st
  | r :: rs =>
      let st' := processRow resolve t st r
      if st'.errored then st' else processLoop resolve t st' rs

/-- The database state the migration runs against. -/
structure DB where
  sources : List (Option Int)
  submissions : List Row
  replies : List Row
deriving Repr

/-- The observable outcome of a run of `upgrade()`. -/
structure UpgradeResult where
  submissions : List Row
  replies : List Row
  tasks : List String
  trace : List Event
  errored : Bool
  raised : Bool
deriving Repr

/-- Embedding of `upgrade()`.  Both orphan batches are fetched first; the
submissions loop runs, then (only if no unclassified error escaped) the
replies loop; the single outer handler re-raises an unclassified error
exactly when `raiseErrors` is set, otherwise swallows it. -/
def upgrade (raiseErrors : Bool) (resolve : String → ResolveResult)
    (db : DB) : UpgradeResult :=
  let subBatch := raw_sql_grab_orphaned_objects db.sources db.submissions
  let repBatch := raw_sql_grab_orphaned_objects db.sources db.replies
  let st1 := processLoop resolve Tbl.submissions
    ⟨db.submissions, [], [], false⟩ subBatch
  if st1.errored then
    { submissions := st1.table
      replies := db.replies
      tasks := st1.tasks
      trace := st1.trace
      errored := true
      raised := raiseErrors }
  else
    let st2 := processLoop resolve Tbl.replies
      ⟨db.replies, st1.tasks, st1.trace, false⟩ repBatch
    { submissions := st1.table
      replies := st2.table
      tasks := st2.tasks
      trace := st2.trace
      errored := st2.errored
      raised := st2.errored && raiseErrors }

/-- Embedding of the module-level
`raise_errors = os.environ.get("SECUREDROP_ENV", "prod") != "prod"`:
the argument is the value of the `SECUREDROP_ENV` environment variable
(`none` when unset). -/
def raise_errors (env : Option String) : Bool :=
  env.getD "prod" != "prod"

/-! ### Lemmas about the SQL three-valued semantics of the orphan query -/

theorem sqlOr_ne_f_left {a b : SqlBool} (h : a ≠ .f) : sqlOr a b ≠ .f := by
  cases a <;> cases b <;> revert h <;> decide

theorem sqlOr_ne_f_right {a b : SqlBool} (h : b ≠ .f) : sqlOr a b ≠ .f := by
  cases a <;> cases b <;> revert h <;> decide

theorem sqlOr_t_right (a : SqlBool) : sqlOr a .t = .t := by
  cases a <;> rfl

theorem sqlEqOpt_none_right (x : Option Int) : sqlEqOpt x none = .n := by
  cases x <;> rfl

theorem sqlIn_cons (x v : Option Int) (vs : List (Option Int)) :
    sqlIn x (v :: vs) = sqlOr (sqlEqOpt x v) (sqlIn x vs) := rfl

/-- `x IN s` is never FALSE when `s` contains a NULL: the best the
comparison with NULL can do is UNKNOWN. -/
theorem sqlIn_ne_f_of_none_mem (x : Option Int) (s : List (Option Int))
    (h : none ∈ s) : sqlIn x s ≠ .f := by
  induction s with
  | nil => cases h
  | cons v vs ih =>
      rcases List.mem_cons.mp h with hv | hv
      · subst hv
        exact sqlOr_ne_f_left (by simp [sqlEqOpt_none_right])
      · exact sqlOr_ne_f_right (ih hv)

/-- `some i IN s` is TRUE when `some i` is an element of `s`. -/
theorem sqlIn_eq_t_of_mem {i : Int} {s : List (Option Int)}
    (h : some i ∈ s) : sqlIn (some i) s = .t := by
  induction s with
  | nil => cases h
  | cons v vs ih =>
      rcases List.mem_cons.mp h with hv | hv
      · subst hv
        rw [sqlIn_cons]
        simp [sqlEqOpt, sqlOr]
      · rw [sqlIn_cons, ih hv, sqlOr_t_right]

/-- `some i IN s` is FALSE when `s` has no NULL and does not contain
`some i`. -/
theorem sqlIn_eq_f_of_not_mem {i : Int} {s : List (Option Int)}
    (hs : ∀ v ∈ s, v ≠ none) (h : some i ∉ s) : sqlIn (some i) s = .f := by
  induction s with
  | nil => rfl
  | cons v vs ih =>
      have hv : v ≠ none := hs v (List.mem_cons_self v vs)
      have hvne : v ≠ some i := fun hc => h (hc ▸ List.mem_cons_self v vs)
      have htail : sqlIn (some i) vs = .f :=
        ih (fun w hw => hs w (List.mem_cons_of_mem v hw))
          (fun hc => h (List.mem_cons_of_mem v hc))
      cases v with
      | none => exact absurd rfl hv
      | some j =>
          have hij : i ≠ j := fun hc => hvne (by simp [hc])
          rw [sqlIn_cons, htail]
          simp [sqlEqOpt, if_neg hij, sqlOr]

theorem notInSources_eq_false_of_none_mem (s : List (Option Int)) (r : Row)
    (h : none ∈ s) : notInSources s r = false := by
  have h1 := sqlIn_ne_f_of_none_mem r.source_id s h
  unfold notInSources
  cases h2 : sqlIn r.source_id s
  · rfl
  · exact absurd h2 h1
  · rfl

theorem notInSources_eq_true_of_dangling {s : List (Option Int)} {r : Row}
    {i : Int} (hs : ∀ v ∈ s, v ≠ none) (hr : r.source_id = some i)
    (h : some i ∉ s) : notInSources s r = true := by
  unfold notInSources
  rw [hr, sqlIn_eq_f_of_not_mem hs h]
  rfl

theorem notInSources_eq_false_of_mem {s : List (Option Int)} {r : Row}
    {i : Int} (hr : r.source_id = some i) (h : some i ∈ s) :
    notInSources s r = false := by
  unfold notInSources
  rw [hr, sqlIn_eq_t_of_mem h]
  rfl

/-- Membership in the fetched orphan batch: a row of the table for which
one of the two UNION branches holds. -/
theorem mem_orphan_batch {s : List (Option Int)} {table : List Row}
    {r : Row} :
    r ∈ raw_sql_grab_orphaned_objects s table ↔
      r ∈ table ∧ (notInSources s r = true ∨ isNullSource r = true) := by
  unfold raw_sql_grab_orphaned_objects
  cases h : notInSources s r <;>
    simp [List.mem_append, List.mem_filter, h]

/-! ### Lemmas about the processing loops -/

/-- The events one loop iteration appends to the trace, by resolution
outcome. -/
def rowTrace (resolve : String → ResolveResult) (t : Tbl) (r : Row) :
    List Event :=
  match resolve r.filename with
  | .ok p => [Event.del t r.id, Event.enq t r.id p]
  | .noFileFound => [Event.del t r.id, Event.del t r.id]
  | .tooManyFiles => [Event.del t r.id]
  | .err => [Event.del t r.id]

/-- The erase tasks one loop iteration appends to the queue. -/
def rowTasks (resolve : String → ResolveResult) (r : Row) : List String :=
  match resolve r.filename with
  | .ok p => [p]
  | _ => []

/-- The events a whole loop appends to the trace: rows in batch order,
cut short after the first row whose resolution raises the unclassified
error. -/
def batchTrace (resolve : String → ResolveResult) (t : Tbl) :
    List Row → List Event
  | [] => []
  | r :: rs =>
      rowTrace resolve t r ++
        (if isErr (resolve r.filename) then [] else batchTrace resolve t rs)

/-- The erase tasks a whole loop appends, with the same error cut. -/
def batchTasks (resolve : String → ResolveResult) : List Row → List String
  | [] => []
  | r :: rs =>
      rowTasks resolve r ++
        (if isErr (resolve r.filename) then [] else batchTasks resolve rs)

theorem deleteRow_deleteRow (table : List Row) (i : Int) :
    deleteRow (deleteRow table i) i = deleteRow table i := by
  unfold deleteRow
  rw [List.filter_filter]
  exact List.filter_congr (fun r _ => by cases h : (r.id != i) <;> simp [h])

theorem processRow_table (resolve : String → ResolveResult) (t : Tbl)
    (st : LoopState) (r : Row) :
    (processRow resolve t st r).table = deleteRow st.table r.id := by
  unfold processRow
  cases resolve r.filename <;> simp [deleteRow_deleteRow]

theorem processRow_errored (resolve : String → ResolveResult) (t : Tbl)
    (st : LoopState) (r : Row) :
    (processRow resolve t st r).errored =
      (st.errored || isErr (resolve r.filename)) := by
  unfold processRow
  cases resolve r.filename <;> simp [isErr]

theorem processRow_trace (resolve : String → ResolveResult) (t : Tbl)
    (st : LoopState) (r : Row) :
    (processRow resolve t st r).trace = st.trace ++ rowTrace resolve t r := by
  unfold processRow rowTrace
  cases resolve r.filename <;> simp

theorem processRow_tasks (resolve : String → ResolveResult) (t : Tbl)
    (st : LoopState) (r : Row) :
    (processRow resolve t st r).tasks = st.tasks ++ rowTasks resolve r := by
  unfold processRow rowTasks
  cases resolve r.filename <;> simp

/-- A loop that ends un-errored started un-errored. -/
theorem processLoop_errored_mono (resolve : String → ResolveResult) (t : Tbl) :
    ∀ (rs : List Row) (st : LoopState),
      (processLoop resolve t st rs).errored = false → st.errored = false
  | [], st => fun h => h
  | r :: rs, st => by
      intro h
      unfold processLoop at h
      by_cases he : (processRow resolve t st r).errored = true
      · rw [if_pos he] at h
        exact absurd h (by simp [he])
      · have he' : (processRow resolve t st r).errored = false := by
          simpa using he
        rw [processRow_errored] at he'
        exact (Bool.or_eq_false_iff.mp he').1

/-- Trace of a whole loop started un-errored. -/
theorem processLoop_trace (resolve : String → ResolveResult) (t : Tbl) :
    ∀ (rs : List Row) (st : LoopState), st.errored = false →
      (processLoop resolve t st rs).trace =
        st.trace ++ batchTrace resolve t rs
  | [], st => by intro h; simp [processLoop, batchTrace]
  | r :: rs, st => by
      intro h
      have herr : (processRow resolve t st r).errored =
          isErr (resolve r.filename) := by
        rw [processRow_errored, h, Bool.false_or]
      show (if (processRow resolve t st r).errored = true
            then processRow resolve t st r
            else processLoop resolve t (processRow resolve t st r) rs).trace =
          st.trace ++ batchTrace resolve t (r :: rs)
      by_cases he : isErr (resolve r.filename) = true
      · rw [if_pos (by rw [herr]; exact he), processRow_trace]
        simp [batchTrace, he]
      · have he' : isErr (resolve r.filename) = false := by simpa using he
        rw [if_neg (by rw [herr, he']; simp),
          processLoop_trace resolve t rs _ (by rw [herr, he']),
          processRow_trace]
        simp [batchTrace, he']

/-- Task list of a whole loop started un-errored. -/
theorem processLoop_tasks (resolve : String → ResolveResult) (t : Tbl) :
    ∀ (rs : List Row) (st : LoopState), st.errored = false →
      (processLoop resolve t st rs).tasks =
        st.tasks ++ batchTasks resolve rs
  | [], st => by intro h; simp [processLoop, batchTasks]
  | r :: rs, st => by
      intro h
      have herr : (processRow resolve t st r).errored =
          isErr (resolve r.filename) := by
        rw [processRow_errored, h, Bool.false_or]
      show (if (processRow resolve t st r).errored = true
            then processRow resolve t st r
            else processLoop resolve t (processRow resolve t st r) rs).tasks =
          st.tasks ++ batchTasks resolve (r :: rs)
      by_cases he : isErr (resolve r.filename) = true
      · rw [if_pos (by rw [herr]; exact he), processRow_tasks]
        simp [batchTasks, he]
      · have he' : isErr (resolve r.filename) = false := by simpa using he
        rw [if_neg (by rw [herr, he']; simp),
          processLoop_tasks resolve t rs _ (by rw [herr, he']),
          processRow_tasks]
        simp [batchTasks, he']

/-- Whether the loop over `rs` hits an unclassified error: the loop's final
error flag, for a loop started un-errored. -/
theorem processLoop_errored_eq (resolve : String → ResolveResult) (t : Tbl) :
    ∀ (rs : List Row) (st : LoopState), st.errored = false →
      (processLoop resolve t st rs).errored =
        rs.any (fun r => isErr (resolve r.filename))
  | [], st => by intro h; simpa [processLoop] using h
  | r :: rs, st => by
      intro h
      have herr : (processRow resolve t st r).errored =
          isErr (resolve r.filename) := by
        rw [processRow_errored, h, Bool.false_or]
      show (if (processRow resolve t st r).errored = true
            then processRow resolve t st r
            else processLoop resolve t (processRow resolve t st r) rs).errored =
          (r :: rs).any (fun x => isErr (resolve x.filename))
      by_cases he : isErr (resolve r.filename) = true
      · rw [if_pos (by rw [herr]; exact he), herr, he]
        simp [List.any_cons, he]
      · have he' : isErr (resolve r.filename) = false := by simpa using he
        rw [if_neg (by rw [herr, he']; simp),
          processLoop_errored_eq resolve t rs _ (by rw [herr, he'])]
        simp [List.any_cons, he']

/-- The final table of an error-free loop: the rows of the starting table
whose id matches no row of the batch. -/
theorem processLoop_table_of_no_err (resolve : String → ResolveResult)
    (t : Tbl) :
    ∀ (rs : List Row) (st : LoopState), st.errored = false →
      rs.any (fun r => isErr (resolve r.filename)) = false →
      (processLoop resolve t st rs).table =
        st.table.filter (fun x => rs.all (fun b => x.id != b.id))
  | [], st => by
      intro h hf
      show st.table = st.table.filter (fun x => List.all [] _)
      simp
  | r :: rs, st => by
      intro h hf
      rw [List.any_cons] at hf
      have hf1 : isErr (resolve r.filename) = false :=
        (Bool.or_eq_false_iff.mp hf).1
      have hf2 : rs.any (fun x => isErr (resolve x.filename)) = false :=
        (Bool.or_eq_false_iff.mp hf).2
      have herr : (processRow resolve t st r).errored =
          isErr (resolve r.filename) := by
        rw [processRow_errored, h, Bool.false_or]
      show (if (processRow resolve t st r).errored = true
            then processRow resolve t st r
            else processLoop resolve t (processRow resolve t st r) rs).table =
          st.table.filter (fun x => (r :: rs).all (fun b => x.id != b.id))
      rw [if_neg (by rw [herr, hf1]; simp),
        processLoop_table_of_no_err resolve t rs _ (by rw [herr, hf1]) hf2,
        processRow_table]
      unfold deleteRow
      rw [List.filter_filter]
      refine List.filter_congr (fun x _ => ?_)
      simp [List.all_cons, Bool.and_comm]

/-- A row whose id differs from every id of the batch survives the loop
(no hypothesis on errors: it survives the processed prefix too). -/
theorem mem_processLoop_table (resolve : String → ResolveResult) (t : Tbl) :
    ∀ (rs : List Row) (st : LoopState) (x : Row), x ∈ st.table →
      (∀ b ∈ rs, x.id ≠ b.id) → x ∈ (processLoop resolve t st rs).table
  | [], st, x => fun hx _ => hx
  | r :: rs, st, x => by
      intro hx hids
      have hx' : x ∈ (processRow resolve t st r).table := by
        rw [processRow_table]
        refine List.mem_filter.mpr ⟨hx, ?_⟩
        simp [bne_iff_ne]
        exact hids r (List.mem_cons_self r rs)
      show x ∈ (if (processRow resolve t st r).errored = true
            then processRow resolve t st r
            else processLoop resolve t (processRow resolve t st r) rs).table
      by_cases he : (processRow resolve t st r).errored = true
      · rw [if_pos he]; exact hx'
      · rw [if_neg he]
        exact mem_processLoop_table resolve t rs _ x hx'
          (fun b hb => hids b (List.mem_cons_of_mem r hb))

/-- The loop only ever deletes rows: its final table is a sublist of the
starting table. -/
theorem processLoop_table_sublist (resolve : String → ResolveResult)
    (t : Tbl) :
    ∀ (rs : List Row) (st : LoopState),
      (processLoop resolve t st rs).table.Sublist st.table
  | [], st => List.Sublist.refl _
  | r :: rs, st => by
      have hsub : (processRow resolve t st r).table.Sublist st.table := by
        rw [processRow_table]
        exact List.filter_sublist _
      show (if (processRow resolve t st r).errored = true
            then processRow resolve t st r
            else processLoop resolve t (processRow resolve t st r) rs).table.Sublist
          st.table
      by_cases he : (processRow resolve t st r).errored = true
      · rw [if_pos he]; exact hsub
      · rw [if_neg he]
        exact (processLoop_table_sublist resolve t rs _).trans hsub

/-- Splitting a loop over a concatenated batch at the junction. -/
theorem processLoop_append (resolve : String → ResolveResult) (t : Tbl) :
    ∀ (l1 l2 : List Row) (st : LoopState), st.errored = false →
      processLoop resolve t st (l1 ++ l2) =
        (if (processLoop resolve t st l1).errored = true
         then processLoop resolve t st l1
         else processLoop resolve t (processLoop resolve t st l1) l2)
  | [], l2, st => by
      intro h
      show processLoop resolve t st l2 =
        (if st.errored = true then st else processLoop resolve t st l2)
      rw [if_neg (by rw [h]; simp)]
  | r :: l1, l2, st => by
      intro h
      have hcons : processLoop resolve t st (r :: l1) =
          (if (processRow resolve t st r).errored = true
           then processRow resolve t st r
           else processLoop resolve t (processRow resolve t st r) l1) := rfl
      show (if (processRow resolve t st r).errored = true
            then processRow resolve t st r
            else processLoop resolve t (processRow resolve t st r) (l1 ++ l2)) =
          _
      by_cases hp : (processRow resolve t st r).errored = true
      · have hval : processLoop resolve t st (r :: l1) =
            processRow resolve t st r := by rw [hcons, if_pos hp]
        rw [if_pos hp, hval, if_pos hp]
      · have hp' : (processRow resolve t st r).errored = false := by
          simpa using hp
        have hval : processLoop resolve t st (r :: l1) =
            processLoop resolve t (processRow resolve t st r) l1 := by
          rw [hcons, if_neg hp]
        rw [if_neg hp, hval]
        exact processLoop_append resolve t l1 l2 _ hp'

/-! ### Unfolding the run of `upgrade()` -/

/-- The state after the submissions loop of `upgrade()`. -/
def subLoopState (resolve : String → ResolveResult) (db : DB) : LoopState :=
  processLoop resolve Tbl.submissions ⟨db.submissions, [], [], false⟩
    (raw_sql_grab_orphaned_objects db.sources db.submissions)

/-- The state after the replies loop of `upgrade()` (reached only when the
submissions loop raised no unclassified error). -/
def repLoopState (resolve : String → ResolveResult) (db : DB) : LoopState :=
  processLoop resolve Tbl.replies
    ⟨db.replies, (subLoopState resolve db).tasks,
      (subLoopState resolve db).trace, false⟩
    (raw_sql_grab_orphaned_objects db.sources db.replies)

theorem upgrade_of_sub_errored {resolve : String → ResolveResult} {db : DB}
    (raiseErrors : Bool) (h : (subLoopState resolve db).errored = true) :
    upgrade raiseErrors resolve db =
      { submissions := (subLoopState resolve db).table
        replies := db.replies
        tasks := (subLoopState resolve db).tasks
        trace := (subLoopState resolve db).trace
        errored := true
        raised := raiseErrors } := by
  unfold subLoopState at h ⊢
  simp only [upgrade]
  rw [if_pos h]

theorem upgrade_of_sub_ok {resolve : String → ResolveResult} {db : DB}
    (raiseErrors : Bool) (h : (subLoopState resolve db).errored = false) :
    upgrade raiseErrors resolve db =
      { submissions := (subLoopState resolve db).table
        replies := (repLoopState resolve db).table
        tasks := (repLoopState resolve db).tasks
        trace := (repLoopState resolve db).trace
        errored := (repLoopState resolve db).errored
        raised := (repLoopState resolve db).errored && raiseErrors } := by
  unfold subLoopState at h
  unfold repLoopState subLoopState
  simp only [upgrade]
  rw [if_neg (by rw [h]; simp)]

/-! ### The event trace of a whole run -/

theorem subLoopState_trace (resolve : String → ResolveResult) (db : DB) :
    (subLoopState resolve db).trace =
      batchTrace resolve Tbl.submissions
        (raw_sql_grab_orphaned_objects db.sources db.submissions) := by
  unfold subLoopState
  rw [processLoop_trace _ _ _ _ rfl]
  simp

theorem subLoopState_errored (resolve : String → ResolveResult) (db : DB) :
    (subLoopState resolve db).errored =
      (raw_sql_grab_orphaned_objects db.sources db.submissions).any
        (fun r => isErr (resolve r.filename)) :=
  processLoop_errored_eq _ _ _ _ rfl

theorem repLoopState_trace (resolve : String → ResolveResult) (db : DB) :
    (repLoopState resolve db).trace =
      (subLoopState resolve db).trace ++
        batchTrace resolve Tbl.replies
          (raw_sql_grab_orphaned_objects db.sources db.replies) := by
  unfold repLoopState
  rw [processLoop_trace _ _ _ _ rfl]

theorem repLoopState_errored (resolve : String → ResolveResult) (db : DB) :
    (repLoopState resolve db).errored =
      (raw_sql_grab_orphaned_objects db.sources db.replies).any
        (fun r => isErr (resolve r.filename)) :=
  processLoop_errored_eq _ _ _ _ rfl

/-- The trace of a whole run: the submissions-loop events, then (only when
no unclassified error escaped that loop) the replies-loop events. -/
theorem upgrade_trace (raiseErrors : Bool) (resolve : String → ResolveResult)
    (db : DB) :
    (upgrade raiseErrors resolve db).trace =
      batchTrace resolve Tbl.submissions
          (raw_sql_grab_orphaned_objects db.sources db.submissions) ++
        (if (subLoopState resolve db).errored = true then []
         else batchTrace resolve Tbl.replies
           (raw_sql_grab_orphaned_objects db.sources db.replies)) := by
  by_cases h : (subLoopState resolve db).errored = true
  · rw [upgrade_of_sub_errored raiseErrors h, if_pos h]
    simp [subLoopState_trace]
  · have h' : (subLoopState resolve db).errored = false := by simpa using h
    rw [upgrade_of_sub_ok raiseErrors h', if_neg h]
    simp [repLoopState_trace, subLoopState_trace]

/-- Origin of an enqueue event: only the loop for table `t` emits it, and
only after successfully resolving the filename of a batch row with that
id. -/
theorem enq_mem_rowTrace {resolve : String → ResolveResult} {t tb : Tbl}
    {i : Int} {p : String} {r : Row}
    (h : Event.enq tb i p ∈ rowTrace resolve t r) :
    tb = t ∧ i = r.id ∧ resolve r.filename = .ok p := by
  unfold rowTrace at h
  cases hres : resolve r.filename <;> rw [hres] at h <;> simp at h
  exact ⟨h.1, h.2.1, by rw [h.2.2]⟩

theorem enq_mem_batchTrace {resolve : String → ResolveResult} {t tb : Tbl}
    {i : Int} {p : String} :
    ∀ {rs : List Row}, Event.enq tb i p ∈ batchTrace resolve t rs →
      tb = t ∧ ∃ b ∈ rs, b.id = i ∧ resolve b.filename = .ok p := by
  intro rs
  induction rs with
  | nil => intro h; cases h
  | cons r rs ih =>
      intro h
      unfold batchTrace at h
      rcases List.mem_append.mp h with h1 | h2
      · obtain ⟨ht, hi, hok⟩ := enq_mem_rowTrace h1
        exact ⟨ht, r, List.mem_cons_self r rs, hi.symm, hok⟩
      · by_cases he : isErr (resolve r.filename) = true
        · rw [if_pos he] at h2; cases h2
        · rw [if_neg he] at h2
          obtain ⟨ht, b, hb, hbi, hok⟩ := ih h2
          exact ⟨ht, b, List.mem_cons_of_mem r hb, hbi, hok⟩

/-- Scan of a trace checking that every enqueue event is preceded by a
deletion event for the same table and row id. -/
def enqPreceded (seen : List (Tbl × Int)) : List Event → Bool
  | [] => true
  | Event.del t i :: rest => enqPreceded ((t, i) :: seen) rest
  | Event.enq t i _ :: rest => seen.contains (t, i) && enqPreceded seen rest

/-- The deletion keys of a trace, pushed onto an accumulator. -/
def pushDels (seen : List (Tbl × Int)) : List Event → List (Tbl × Int)
  | [] => seen
  | Event.del t i :: rest => pushDels ((t, i) :: seen) rest
  | Event.enq _ _ _ :: rest => pushDels seen rest

theorem enqPreceded_append (seen : List (Tbl × Int)) :
    ∀ (A B : List Event),
      enqPreceded seen (A ++ B) =
        (enqPreceded seen A && enqPreceded (pushDels seen A) B) := by
  intro A
  induction A generalizing seen with
  | nil => intro B; simp [enqPreceded, pushDels]
  | cons e rest ih =>
      intro B
      cases e with
      | del t i => simpa [enqPreceded, pushDels] using ih ((t, i) :: seen) B
      | enq t i p =>
          simp [enqPreceded, pushDels, ih seen B, Bool.and_assoc]

theorem enqPreceded_rowTrace (resolve : String → ResolveResult) (t : Tbl)
    (r : Row) (seen : List (Tbl × Int)) :
    enqPreceded seen (rowTrace resolve t r) = true := by
  unfold rowTrace
  cases resolve r.filename <;> simp [enqPreceded, List.contains_cons]

theorem enqPreceded_batchTrace (resolve : String → ResolveResult) (t : Tbl) :
    ∀ (rs : List Row) (seen : List (Tbl × Int)),
      enqPreceded seen (batchTrace resolve t rs) = true
  | [], seen => rfl
  | r :: rs, seen => by
      unfold batchTrace
      rw [enqPreceded_append]
      by_cases he : isErr (resolve r.filename) = true <;>
        simp [he, enqPreceded_rowTrace,
          enqPreceded_batchTrace resolve t rs, enqPreceded]

/-- Recognizer for an enqueue event fired while processing the row with
id `i` of table `tb`. -/
def isEnqFor (tb : Tbl) (i : Int) : Event → Bool
  | Event.enq t j _ => t == tb && j == i
  | _ => false

theorem countP_enq_rowTrace (resolve : String → ResolveResult) (t tb : Tbl)
    (i : Int) (r : Row) :
    (rowTrace resolve t r).countP (isEnqFor tb i) ≤
      (if r.id == i then 1 else 0) := by
  unfold rowTrace
  cases resolve r.filename <;>
    cases ht : (t == tb) <;> cases hr : (r.id == i) <;>
      simp [List.countP_cons, isEnqFor, ht, hr]

theorem countP_enq_batchTrace (resolve : String → ResolveResult) (t tb : Tbl)
    (i : Int) :
    ∀ (rs : List Row),
      (batchTrace resolve t rs).countP (isEnqFor tb i) ≤
        rs.countP (fun b => b.id == i)
  | [] => Nat.le_refl 0
  | r :: rs => by
      unfold batchTrace
      rw [List.countP_append, List.countP_cons]
      have h1 := countP_enq_rowTrace resolve t tb i r
      have h2 : (if isErr (resolve r.filename) = true then ([] : List Event)
            else batchTrace resolve t rs).countP (isEnqFor tb i) ≤
          rs.countP (fun b => b.id == i) := by
        by_cases he : isErr (resolve r.filename) = true <;>
          simp [he, countP_enq_batchTrace resolve t tb i rs]
      omega

/-! ### Primary-key reasoning -/

/-- With distinct ids, two table members with the same id are the same
row. -/
theorem eq_of_mem_of_id_eq {table : List Row}
    (h : (table.map Row.id).Nodup) {a b : Row} (ha : a ∈ table)
    (hb : b ∈ table) (hid : a.id = b.id) : a = b :=
  List.inj_on_of_nodup_map h ha hb hid

/-- Distinct table ids give distinct ids in the fetched orphan batch. -/
theorem nodup_ids_batch {s : List (Option Int)} {table : List Row}
    (h : (table.map Row.id).Nodup) :
    ((raw_sql_grab_orphaned_objects s table).map Row.id).Nodup := by
  unfold raw_sql_grab_orphaned_objects
  rw [List.map_append]
  apply List.Nodup.append
  · exact h.sublist ((List.filter_sublist table).map Row.id)
  · exact h.sublist ((List.filter_sublist table).map Row.id)
  · intro i hi1 hi2
    obtain ⟨a, ha, hai⟩ := List.mem_map.mp hi1
    obtain ⟨b, hb, hbi⟩ := List.mem_map.mp hi2
    obtain ⟨haT, hap⟩ := List.mem_filter.mp ha
    obtain ⟨hbT, hbp⟩ := List.mem_filter.mp hb
    have hab : a = b :=
      eq_of_mem_of_id_eq h haT hbT (by rw [hai, hbi])
    rw [hab] at hap
    rw [Bool.and_eq_true, Bool.not_eq_true'] at hbp
    exact absurd hap (by rw [hbp.2]; simp)

/-- With distinct table ids, the count of batch rows with a fixed id is at
most one. -/
theorem countP_id_batch_le_one {s : List (Option Int)} {table : List Row}
    (h : (table.map Row.id).Nodup) (i : Int) :
    (raw_sql_grab_orphaned_objects s table).countP
      (fun b => b.id == i) ≤ 1 := by
  have hnd := @nodup_ids_batch s table h
  have := List.nodup_iff_count_le_one.mp hnd i
  rw [List.count, List.countP_map] at this
  exact le_trans (le_of_eq (by rfl)) this

/-! ### Helpers tying loop facts to the run of `upgrade()` -/

theorem upgrade_errored_false_parts {raiseErrors : Bool}
    {resolve : String → ResolveResult} {db : DB}
    (h : (upgrade raiseErrors resolve db).errored = false) :
    (subLoopState resolve db).errored = false ∧
    (repLoopState resolve db).errored = false := by
  by_cases hsub : (subLoopState resolve db).errored = true
  · rw [upgrade_of_sub_errored raiseErrors hsub] at h
    simp at h
  · have hsub' : (subLoopState resolve db).errored = false := by simpa using hsub
    rw [upgrade_of_sub_ok raiseErrors hsub'] at h
    exact ⟨hsub', h⟩

theorem upgrade_submissions_eq (raiseErrors : Bool)
    (resolve : String → ResolveResult) (db : DB) :
    (upgrade raiseErrors resolve db).submissions =
      (subLoopState resolve db).table := by
  by_cases hsub : (subLoopState resolve db).errored = true
  · rw [upgrade_of_sub_errored raiseErrors hsub]
  · rw [upgrade_of_sub_ok raiseErrors (by simpa using hsub)]

theorem upgrade_replies_eq_of_sub_ok {resolve : String → ResolveResult}
    {db : DB} (raiseErrors : Bool)
    (h : (subLoopState resolve db).errored = false) :
    (upgrade raiseErrors resolve db).replies =
      (repLoopState resolve db).table := by
  rw [upgrade_of_sub_ok raiseErrors h]

theorem upgrade_raised_of_errored_false {raiseErrors : Bool}
    {resolve : String → ResolveResult} {db : DB}
    (h : (upgrade raiseErrors resolve db).errored = false) :
    (upgrade raiseErrors resolve db).raised = false := by
  obtain ⟨hsub, hrep⟩ := upgrade_errored_false_parts h
  rw [upgrade_of_sub_ok raiseErrors hsub]
  simp [hrep]

/-- Best-effort mode never propagates an error, whatever happens. -/
theorem upgrade_false_raised (resolve : String → ResolveResult) (db : DB) :
    (upgrade false resolve db).raised = false := by
  by_cases hsub : (subLoopState resolve db).errored = true
  · rw [upgrade_of_sub_errored false hsub]
  · rw [upgrade_of_sub_ok false (by simpa using hsub)]
    simp

theorem subLoopState_table_of_no_err {resolve : String → ResolveResult}
    {db : DB} (h : (subLoopState resolve db).errored = false) :
    (subLoopState resolve db).table =
      db.submissions.filter (fun x =>
        (raw_sql_grab_orphaned_objects db.sources db.submissions).all
          (fun b => x.id != b.id)) := by
  rw [subLoopState_errored] at h
  exact processLoop_table_of_no_err _ _ _ _ rfl h

theorem repLoopState_table_of_no_err {resolve : String → ResolveResult}
    {db : DB} (h : (repLoopState resolve db).errored = false) :
    (repLoopState resolve db).table =
      db.replies.filter (fun x =>
        (raw_sql_grab_orphaned_objects db.sources db.replies).all
          (fun b => x.id != b.id)) := by
  rw [repLoopState_errored] at h
  exact processLoop_table_of_no_err _ _ _ _ rfl h

/-- A member of an error-free loop's batch is gone from the loop's final
table. -/
theorem batch_member_not_in_final (resolve : String → ResolveResult)
    (t : Tbl) (rs : List Row) (st : LoopState) (h0 : st.errored = false)
    (hany : rs.any (fun r => isErr (resolve r.filename)) = false)
    {r : Row} (hr : r ∈ rs) : r ∉ (processLoop resolve t st rs).table := by
  rw [processLoop_table_of_no_err resolve t rs st h0 hany]
  intro hmem
  have hall := (List.mem_filter.mp hmem).2
  rw [List.all_eq_true] at hall
  have := hall r hr
  simp at this

/-- A row satisfying the claim-level orphan condition is in the fetched
batch, provided no source id is NULL. -/
theorem orphan_mem_batch {s : List (Option Int)} {table : List Row}
    (hs : ∀ v ∈ s, v ≠ none) {r : Row} (hr : r ∈ table)
    (hcond : r.source_id = none ∨ r.source_id ∉ s) :
    r ∈ raw_sql_grab_orphaned_objects s table := by
  refine mem_orphan_batch.mpr ⟨hr, ?_⟩
  rcases hcond with hn | hnm
  · right
    simp [isNullSource, hn]
  · cases hsi : r.source_id with
    | none =>
        right
        simp [isNullSource, hsi]
    | some i =>
        left
        exact notInSources_eq_true_of_dangling hs hsi
          (by rw [hsi] at hnm; exact hnm)

/-- A row with a live source reference is never in the fetched batch. -/
theorem valid_not_mem_batch {s : List (Option Int)} {table : List Row}
    {r : Row} {i : Int} (hr : r.source_id = some i) (hmem : some i ∈ s) :
    r ∉ raw_sql_grab_orphaned_objects s table := by
  intro hb
  rcases (mem_orphan_batch.mp hb).2 with h1 | h2
  · rw [notInSources_eq_false_of_mem hr hmem] at h1
    cases h1
  · rw [isNullSource, hr] at h2
    simp at h2

theorem mem_deleteRow_ne {table : List Row} {i : Int} {x : Row}
    (h : x ∈ deleteRow table i) : x.id ≠ i := by
  have := (List.mem_filter.mp h).2
  simpa [bne_iff_ne] using this

/-- Once an enqueue for (t, i) appears in a loop's trace, no row with id
`i` is left in the loop's final table. -/
theorem enq_in_trace_id_deleted (resolve : String → ResolveResult) (t : Tbl)
    (i : Int) (p : String) :
    ∀ (rs : List Row) (st : LoopState), st.errored = false →
      Event.enq t i p ∈ batchTrace resolve t rs →
      ∀ x ∈ (processLoop resolve t st rs).table, x.id ≠ i
  | [], st => by intro _ h; cases h
  | r :: rs, st => by
      intro h0 h x hx
      have herr : (processRow resolve t st r).errored =
          isErr (resolve r.filename) := by
        rw [processRow_errored, h0, Bool.false_or]
      have hloop : processLoop resolve t st (r :: rs) =
          (if (processRow resolve t st r).errored = true
           then processRow resolve t st r
           else processLoop resolve t (processRow resolve t st r) rs) := rfl
      unfold batchTrace at h
      rcases List.mem_append.mp h with h1 | h2
      · obtain ⟨_, hi, hok⟩ := enq_mem_rowTrace h1
        have hne : isErr (resolve r.filename) = false := by
          rw [hok]; rfl
        rw [hloop, if_neg (by rw [herr, hne]; simp)] at hx
        have hx' : x ∈ (processRow resolve t st r).table :=
          (processLoop_table_sublist resolve t rs _).mem hx
        rw [processRow_table] at hx'
        rw [hi]
        exact mem_deleteRow_ne hx'
      · by_cases he : isErr (resolve r.filename) = true
        · rw [if_pos he] at h2
          cases h2
        · have he' : isErr (resolve r.filename) = false := by simpa using he
          rw [if_neg he] at h2
          rw [hloop, if_neg (by rw [herr, he']; simp)] at hx
          exact enq_in_trace_id_deleted resolve t i p rs _
            (by rw [herr, he']) h2 x hx

/-- The table tag carried by an event. -/
def eventTbl : Event → Tbl
  | Event.del t _ => t
  | Event.enq t _ _ => t

theorem mem_rowTrace_tag {resolve : String → ResolveResult} {t : Tbl}
    {r : Row} {e : Event} (h : e ∈ rowTrace resolve t r) : eventTbl e = t := by
  unfold rowTrace at h
  cases hres : resolve r.filename <;> rw [hres] at h <;> simp at h
  · rcases h with h1 | h1 <;> subst h1 <;> rfl
  · subst h; rfl
  · subst h; rfl
  · subst h; rfl

theorem mem_batchTrace_tag {resolve : String → ResolveResult} {t : Tbl}
    {e : Event} :
    ∀ {rs : List Row}, e ∈ batchTrace resolve t rs → eventTbl e = t := by
  intro rs
  induction rs with
  | nil => intro h; cases h
  | cons r rs ih =>
      intro h
      unfold batchTrace at h
      rcases List.mem_append.mp h with h1 | h2
      · exact mem_rowTrace_tag h1
      · by_cases he : isErr (resolve r.filename) = true
        · rw [if_pos he] at h2; cases h2
        · rw [if_neg he] at h2; exact ih h2

/-- Anatomy of a run whose submissions batch hits an unclassified error at
row `b`: the rows after `b` survive, the replies table is untouched, and
the outer handler re-raises exactly in strict mode. -/
theorem upgrade_error_in_sub_batch (raiseErrors : Bool)
    (resolve : String → ResolveResult) (db : DB) (l1 l2 : List Row) (b : Row)
    (hsub : (db.submissions.map Row.id).Nodup)
    (hsplit : raw_sql_grab_orphaned_objects db.sources db.submissions =
      l1 ++ b :: l2)
    (hpre : l1.any (fun r => isErr (resolve r.filename)) = false)
    (hb : resolve b.filename = .err) :
    (upgrade raiseErrors resolve db).raised = raiseErrors ∧
    (upgrade raiseErrors resolve db).errored = true ∧
    (upgrade raiseErrors resolve db).replies = db.replies ∧
    ∀ x ∈ l2, x ∈ (upgrade raiseErrors resolve db).submissions := by
  have herrsub : (subLoopState resolve db).errored = true := by
    rw [subLoopState_errored, hsplit]
    simp [List.any_append, List.any_cons, hb, isErr]
  have hup := upgrade_of_sub_errored raiseErrors herrsub
  refine ⟨by rw [hup], by rw [hup], by rw [hup], ?_⟩
  intro x hx
  have hnd : ((l1 ++ b :: l2).map Row.id).Nodup := by
    rw [← hsplit]
    exact nodup_ids_batch hsub
  rw [List.map_append] at hnd
  obtain ⟨hnd1, hnd2, hdisj⟩ := List.nodup_append.mp hnd
  have hxidmem : x.id ∈ (b :: l2).map Row.id :=
    List.mem_map.mpr ⟨x, List.mem_cons_of_mem b hx, rfl⟩
  have hxl1 : ∀ y ∈ l1, x.id ≠ y.id := by
    intro y hy hxy
    exact hdisj (List.mem_map.mpr ⟨y, hy, hxy.symm⟩) hxidmem
  have hxb : x.id ≠ b.id := by
    intro hxb
    rw [List.map_cons, List.nodup_cons] at hnd2
    exact hnd2.1 (hxb ▸ List.mem_map.mpr ⟨x, hx, rfl⟩)
  have hxT : x ∈ db.submissions := by
    have : x ∈ raw_sql_grab_orphaned_objects db.sources db.submissions := by
      rw [hsplit]
      exact List.mem_append_right l1 (List.mem_cons_of_mem b hx)
    exact (mem_orphan_batch.mp this).1
  have hst0 : (⟨db.submissions, [], [], false⟩ : LoopState).errored = false :=
    rfl
  have hst1err : (processLoop resolve Tbl.submissions
      ⟨db.submissions, [], [], false⟩ l1).errored = false := by
    rw [processLoop_errored_eq _ _ _ _ rfl]
    exact hpre
  have hx1 : x ∈ (processLoop resolve Tbl.submissions
      ⟨db.submissions, [], [], false⟩ l1).table :=
    mem_processLoop_table resolve Tbl.submissions l1 _ x hxT hxl1
  have htab : (subLoopState resolve db).table =
      deleteRow (processLoop resolve Tbl.submissions
        ⟨db.submissions, [], [], false⟩ l1).table b.id := by
    unfold subLoopState
    rw [hsplit, processLoop_append resolve Tbl.submissions l1 (b :: l2) _ rfl,
      if_neg (by rw [hst1err]; simp)]
    have hrowerr : (processRow resolve Tbl.submissions
        (processLoop resolve Tbl.submissions
          ⟨db.submissions, [], [], false⟩ l1) b).errored = true := by
      rw [processRow_errored, hst1err, hb]
      rfl
    have hcons : processLoop resolve Tbl.submissions
        (processLoop resolve Tbl.submissions
          ⟨db.submissions, [], [], false⟩ l1) (b :: l2) =
        processRow resolve Tbl.submissions
          (processLoop resolve Tbl.submissions
            ⟨db.submissions, [], [], false⟩ l1) b := by
      have hdef : processLoop resolve Tbl.submissions
          (processLoop resolve Tbl.submissions
            ⟨db.submissions, [], [], false⟩ l1) (b :: l2) =
          (if (processRow resolve Tbl.submissions
                (processLoop resolve Tbl.submissions
                  ⟨db.submissions, [], [], false⟩ l1) b).errored = true
           then processRow resolve Tbl.submissions
             (processLoop resolve Tbl.submissions
               ⟨db.submissions, [], [], false⟩ l1) b
           else processLoop resolve Tbl.submissions
             (processRow resolve Tbl.submissions
               (processLoop resolve Tbl.submissions
                 ⟨db.submissions, [], [], false⟩ l1) b) l2) := rfl
      rw [hdef, if_pos hrowerr]
    rw [hcons, processRow_table]
  rw [upgrade_submissions_eq, htab]
  refine List.mem_filter.mpr ⟨hx1, ?_⟩
  simpa [bne_iff_ne] using hxb

/-- No enqueue with submissions tag and id `i` appears in the trace when no
submissions-batch row with that id resolves successfully. -/
theorem no_enq_sub_trace (raiseErrors : Bool)
    (resolve : String → ResolveResult) (db : DB) (i : Int)
    (hno : ∀ bb ∈ raw_sql_grab_orphaned_objects db.sources db.submissions,
      bb.id = i → ∀ q, resolve bb.filename ≠ .ok q) :
    ∀ p, Event.enq Tbl.submissions i p ∉
      (upgrade raiseErrors resolve db).trace := by
  intro p hmem
  rw [upgrade_trace] at hmem
  rcases List.mem_append.mp hmem with h1 | h2
  · obtain ⟨-, bb, hbb, hbid, hbok⟩ := enq_mem_batchTrace h1
    exact hno bb hbb hbid p hbok
  · by_cases he : (subLoopState resolve db).errored = true
    · rw [if_pos he] at h2
      cases h2
    · rw [if_neg he] at h2
      exact Tbl.noConfusion (enq_mem_batchTrace h2).1

/-- Replies-tag analogue of `no_enq_sub_trace`. -/
theorem no_enq_rep_trace (raiseErrors : Bool)
    (resolve : String → ResolveResult) (db : DB) (i : Int)
    (hno : ∀ bb ∈ raw_sql_grab_orphaned_objects db.sources db.replies,
      bb.id = i → ∀ q, resolve bb.filename ≠ .ok q) :
    ∀ p, Event.enq Tbl.replies i p ∉
      (upgrade raiseErrors resolve db).trace := by
  intro p hmem
  rw [upgrade_trace] at hmem
  rcases List.mem_append.mp hmem with h1 | h2
  · exact Tbl.noConfusion (enq_mem_batchTrace h1).1
  · by_cases he : (subLoopState resolve db).errored = true
    · rw [if_pos he] at h2
      cases h2
    · rw [if_neg he] at h2
      obtain ⟨-, bb, hbb, hbid, hbok⟩ := enq_mem_batchTrace h2
      exact hno bb hbb hbid p hbok

/-! ### Concrete inputs used to witness the claims -/

/-- A storage resolver: "missing" raises `NoFileFoundException`, "dup"
raises `TooManyFilesException`, "bad" raises an unclassified error, and
anything else resolves to a path. -/
def resolveEx : String → ResolveResult := fun f =>
  if f = "missing" then ResolveResult.noFileFound
  else if f = "dup" then ResolveResult.tooManyFiles
  else if f = "bad" then ResolveResult.err
  else ResolveResult.ok ("p_" ++ f)

/-- One live source; a valid submission, a dangling one and a NULL one; a
dangling reply with an ambiguous file and a NULL reply. -/
def dbEx : DB :=
  { sources := [some 1]
    submissions := [⟨10, "keep", some 1⟩, ⟨11, "f1", some 2⟩,
      ⟨12, "missing", none⟩]
    replies := [⟨20, "dup", some 9⟩, ⟨21, "f2", none⟩] }

/-- A database whose first orphan submission raises an unclassified error
while a later orphan submission and an orphan reply are well-behaved. -/
def dbErr : DB :=
  { sources := [some 1]
    submissions := [⟨11, "bad", some 2⟩, ⟨12, "f1", some 3⟩]
    replies := [⟨20, "f2", none⟩] }

/-! ### The claims -/

/-- Claim C9: the run is strict (errors propagate) exactly when the
SECUREDROP_ENV environment variable is set to some value other than
"prod", and best-effort otherwise — in particular when the variable is
unset. -/
theorem raise_errors_strict_iff :
    (∀ env : Option String,
      raise_errors env = true ↔ ∃ s : String, env = some s ∧ s ≠ "prod") ∧
    raise_errors none = false := by
  constructor
  · intro env
    cases env with
    | none => simp [raise_errors]
    | some s =>
        constructor
        · intro h
          refine ⟨s, rfl, ?_⟩
          simpa [raise_errors, bne_iff_ne] using h
        · rintro ⟨s', hs', hne⟩
          obtain rfl : s = s' := by injection hs'
          simpa [raise_errors, bne_iff_ne] using hne
  · rfl

/-- Claim C10: when the sources table contains a NULL id, the
`source_id NOT IN (SELECT id FROM sources)` branch of the orphan query
selects no rows at all, and the query returns exactly the rows whose
source_id is itself NULL. -/
theorem null_in_sources_defeats_not_in (s : List (Option Int))
    (table : List Row) (h : none ∈ s) :
    table.filter (notInSources s) = [] ∧
    raw_sql_grab_orphaned_objects s table = table.filter isNullSource := by
  have hfalse : ∀ r, notInSources s r = false :=
    fun r => notInSources_eq_false_of_none_mem s r h
  constructor
  · exact List.filter_eq_nil_iff.mpr (fun r _ => by simp [hfalse r])
  · unfold raw_sql_grab_orphaned_objects
    rw [List.filter_eq_nil_iff.mpr (fun r _ => by simp [hfalse r]),
      List.nil_append]
    exact List.filter_congr (fun r _ => by simp [hfalse r])

/-- Witness for C10, at a sources table holding a NULL id next to id 1 and
a table with one dangling row and one NULL row. -/
theorem null_in_sources_defeats_not_in_witness :
    none ∈ ([none, some 1] : List (Option Int)) ∧
    ([⟨1, "x", some 5⟩, ⟨2, "y", none⟩] : List Row).filter
        (notInSources [none, some 1]) = [] ∧
    raw_sql_grab_orphaned_objects [none, some 1]
        [⟨1, "x", some 5⟩, ⟨2, "y", none⟩] =
      ([⟨1, "x", some 5⟩, ⟨2, "y", none⟩] : List Row).filter isNullSource :=
  ⟨by decide,
    null_in_sources_defeats_not_in [none, some 1]
      [⟨1, "x", some 5⟩, ⟨2, "y", none⟩] (by decide)⟩

/-- Claim C1: after a run in which no unclassified error occurred, every
submission and reply row whose source_id is NULL or references no source
id is gone from its table (source ids are non-NULL, as the primary key
guarantees). -/
theorem upgrade_removes_orphan_rows (raiseErrors : Bool)
    (resolve : String → ResolveResult) (db : DB)
    (hs : ∀ v ∈ db.sources, v ≠ none)
    (hne : (upgrade raiseErrors resolve db).errored = false) :
    (∀ r ∈ db.submissions,
      r.source_id = none ∨ r.source_id ∉ db.sources →
        r ∉ (upgrade raiseErrors resolve db).submissions) ∧
    (∀ r ∈ db.replies,
      r.source_id = none ∨ r.source_id ∉ db.sources →
        r ∉ (upgrade raiseErrors resolve db).replies) := by
  obtain ⟨hsub, hrep⟩ := upgrade_errored_false_parts hne
  constructor
  · intro r hr hcond
    rw [upgrade_submissions_eq]
    have hb := orphan_mem_batch hs hr hcond
    rw [subLoopState_errored] at hsub
    unfold subLoopState
    exact batch_member_not_in_final resolve Tbl.submissions _ _ rfl hsub hb
  · intro r hr hcond
    obtain ⟨hsub', -⟩ := upgrade_errored_false_parts hne
    rw [upgrade_replies_eq_of_sub_ok raiseErrors hsub']
    have hb := orphan_mem_batch hs hr hcond
    rw [repLoopState_errored] at hrep
    unfold repLoopState
    exact batch_member_not_in_final resolve Tbl.replies _ _ rfl hrep hb

/-- Witness for C1: the dangling submission (id 11) is gone after an
error-free best-effort run. -/
theorem upgrade_removes_orphan_rows_witness :
    (∀ v ∈ dbEx.sources, v ≠ none) ∧
    (upgrade false resolveEx dbEx).errored = false ∧
    Row.mk 11 "f1" (some 2) ∉ (upgrade false resolveEx dbEx).submissions := by
  refine ⟨by decide, by decide, ?_⟩
  exact (upgrade_removes_orphan_rows false resolveEx dbEx (by decide)
    (by decide)).1 (Row.mk 11 "f1" (some 2)) (by decide) (by decide)

/-- Claim C2: a submission or reply row whose source_id matches an existing
source id is neither deleted nor does any erase-task enqueue fire for it,
in any mode and whatever the resolver does. -/
theorem upgrade_preserves_valid_rows (raiseErrors : Bool)
    (resolve : String → ResolveResult) (db : DB)
    (hsub : (db.submissions.map Row.id).Nodup)
    (hrep : (db.replies.map Row.id).Nodup) :
    (∀ r ∈ db.submissions, ∀ i : Int, r.source_id = some i →
      some i ∈ db.sources →
        r ∈ (upgrade raiseErrors resolve db).submissions ∧
        ∀ p, Event.enq Tbl.submissions r.id p ∉
          (upgrade raiseErrors resolve db).trace) ∧
    (∀ r ∈ db.replies, ∀ i : Int, r.source_id = some i →
      some i ∈ db.sources →
        r ∈ (upgrade raiseErrors resolve db).replies ∧
        ∀ p, Event.enq Tbl.replies r.id p ∉
          (upgrade raiseErrors resolve db).trace) := by
  constructor
  · intro r hrT i hri hmem
    have hnotin : r ∉ raw_sql_grab_orphaned_objects db.sources db.submissions :=
      valid_not_mem_batch hri hmem
    have hids : ∀ b ∈ raw_sql_grab_orphaned_objects db.sources db.submissions,
        r.id ≠ b.id := by
      intro b hbB hid
      have hbT := (mem_orphan_batch.mp hbB).1
      have hbr : b = r := eq_of_mem_of_id_eq hsub hbT hrT hid.symm
      exact hnotin (hbr ▸ hbB)
    constructor
    · rw [upgrade_submissions_eq]
      unfold subLoopState
      exact mem_processLoop_table resolve Tbl.submissions _ _ r hrT hids
    · exact no_enq_sub_trace raiseErrors resolve db r.id
        (fun bb hbb hbid q _ => absurd hbid.symm (hids bb hbb))
  · intro r hrT i hri hmem
    have hnotin : r ∉ raw_sql_grab_orphaned_objects db.sources db.replies :=
      valid_not_mem_batch hri hmem
    have hids : ∀ b ∈ raw_sql_grab_orphaned_objects db.sources db.replies,
        r.id ≠ b.id := by
      intro b hbB hid
      have hbT := (mem_orphan_batch.mp hbB).1
      have hbr : b = r := eq_of_mem_of_id_eq hrep hbT hrT hid.symm
      exact hnotin (hbr ▸ hbB)
    constructor
    · by_cases he : (subLoopState resolve db).errored = true
      · rw [upgrade_of_sub_errored raiseErrors he]
        exact hrT
      · rw [upgrade_replies_eq_of_sub_ok raiseErrors (by simpa using he)]
        unfold repLoopState
        exact mem_processLoop_table resolve Tbl.replies _ _ r hrT hids
    · exact no_enq_rep_trace raiseErrors resolve db r.id
        (fun bb hbb hbid q _ => absurd hbid.symm (hids bb hbb))

/-- Witness for C2: the valid submission (id 10, source 1) survives the
run on the example database. -/
theorem upgrade_preserves_valid_rows_witness :
    (dbEx.submissions.map Row.id).Nodup ∧
    (dbEx.replies.map Row.id).Nodup ∧
    Row.mk 10 "keep" (some 1) ∈ (upgrade false resolveEx dbEx).submissions := by
  refine ⟨by decide, by decide, ?_⟩
  exact ((upgrade_preserves_valid_rows false resolveEx dbEx (by decide)
    (by decide)).1 (Row.mk 10 "keep" (some 1)) (by decide) 1 rfl
      (by decide)).1

/-- Claim C4: an orphan row whose filename resolution raises
`NoFileFoundException` is deleted from its table, no erase task is
enqueued for it, and the run raises nothing (given the run hits no
unclassified error). -/
theorem upgrade_noFileFound_deletes_row_only (raiseErrors : Bool)
    (resolve : String → ResolveResult) (db : DB)
    (hsub : (db.submissions.map Row.id).Nodup)
    (hrep : (db.replies.map Row.id).Nodup)
    (hne : (upgrade raiseErrors resolve db).errored = false) :
    (upgrade raiseErrors resolve db).raised = false ∧
    (∀ r ∈ raw_sql_grab_orphaned_objects db.sources db.submissions,
      resolve r.filename = ResolveResult.noFileFound →
        r ∉ (upgrade raiseErrors resolve db).submissions ∧
        ∀ p, Event.enq Tbl.submissions r.id p ∉
          (upgrade raiseErrors resolve db).trace) ∧
    (∀ r ∈ raw_sql_grab_orphaned_objects db.sources db.replies,
      resolve r.filename = ResolveResult.noFileFound →
        r ∉ (upgrade raiseErrors resolve db).replies ∧
        ∀ p, Event.enq Tbl.replies r.id p ∉
          (upgrade raiseErrors resolve db).trace) := by
  obtain ⟨hsuberr, hreperr⟩ := upgrade_errored_false_parts hne
  refine ⟨upgrade_raised_of_errored_false hne, ?_, ?_⟩
  · intro r hrB hres
    constructor
    · rw [upgrade_submissions_eq]
      rw [subLoopState_errored] at hsuberr
      unfold subLoopState
      exact batch_member_not_in_final resolve Tbl.submissions _ _ rfl
        hsuberr hrB
    · refine no_enq_sub_trace raiseErrors resolve db r.id ?_
      intro bb hbb hbid q hok
      have hbr : bb = r := eq_of_mem_of_id_eq hsub
        (mem_orphan_batch.mp hbb).1 (mem_orphan_batch.mp hrB).1
        (by rw [hbid])
      rw [hbr, hres] at hok
      cases hok
  · intro r hrB hres
    constructor
    · rw [upgrade_replies_eq_of_sub_ok raiseErrors hsuberr]
      rw [repLoopState_errored] at hreperr
      unfold repLoopState
      exact batch_member_not_in_final resolve Tbl.replies _ _ rfl
        hreperr hrB
    · refine no_enq_rep_trace raiseErrors resolve db r.id ?_
      intro bb hbb hbid q hok
      have hbr : bb = r := eq_of_mem_of_id_eq hrep
        (mem_orphan_batch.mp hbb).1 (mem_orphan_batch.mp hrB).1
        (by rw [hbid])
      rw [hbr, hres] at hok
      cases hok

/-- Witness for C4: the NULL-source submission (id 12) with a missing file
is deleted and the run raises nothing. -/
theorem upgrade_noFileFound_deletes_row_only_witness :
    (dbEx.submissions.map Row.id).Nodup ∧
    (dbEx.replies.map Row.id).Nodup ∧
    (upgrade false resolveEx dbEx).errored = false ∧
    Row.mk 12 "missing" none ∉ (upgrade false resolveEx dbEx).submissions := by
  refine ⟨by decide, by decide, by decide, ?_⟩
  exact ((upgrade_noFileFound_deletes_row_only false resolveEx dbEx
    (by decide) (by decide) (by decide)).2.1 (Row.mk 12 "missing" none)
      (by decide) (by decide)).1

/-- Claim C5: an orphan row whose filename resolution raises
`TooManyFilesException` is deleted from its table, no erase task fires for
it, and the run raises nothing (given the run hits no unclassified
error). -/
theorem upgrade_tooManyFiles_deletes_row_only (raiseErrors : Bool)
    (resolve : String → ResolveResult) (db : DB)
    (hsub : (db.submissions.map Row.id).Nodup)
    (hrep : (db.replies.map Row.id).Nodup)
    (hne : (upgrade raiseErrors resolve db).errored = false) :
    (upgrade raiseErrors resolve db).raised = false ∧
    (∀ r ∈ raw_sql_grab_orphaned_objects db.sources db.submissions,
      resolve r.filename = ResolveResult.tooManyFiles →
        r ∉ (upgrade raiseErrors resolve db).submissions ∧
        ∀ p, Event.enq Tbl.submissions r.id p ∉
          (upgrade raiseErrors resolve db).trace) ∧
    (∀ r ∈ raw_sql_grab_orphaned_objects db.sources db.replies,
      resolve r.filename = ResolveResult.tooManyFiles →
        r ∉ (upgrade raiseErrors resolve db).replies ∧
        ∀ p, Event.enq Tbl.replies r.id p ∉
          (upgrade raiseErrors resolve db).trace) := by
  obtain ⟨hsuberr, hreperr⟩ := upgrade_errored_false_parts hne
  refine ⟨upgrade_raised_of_errored_false hne, ?_, ?_⟩
  · intro r hrB hres
    constructor
    · rw [upgrade_submissions_eq]
      rw [subLoopState_errored] at hsuberr
      unfold subLoopState
      exact batch_member_not_in_final resolve Tbl.submissions _ _ rfl
        hsuberr hrB
    · refine no_enq_sub_trace raiseErrors resolve db r.id ?_
      intro bb hbb hbid q hok
      have hbr : bb = r := eq_of_mem_of_id_eq hsub
        (mem_orphan_batch.mp hbb).1 (mem_orphan_batch.mp hrB).1
        (by rw [hbid])
      rw [hbr, hres] at hok
      cases hok
  · intro r hrB hres
    constructor
    · rw [upgrade_replies_eq_of_sub_ok raiseErrors hsuberr]
      rw [repLoopState_errored] at hreperr
      unfold repLoopState
      exact batch_member_not_in_final resolve Tbl.replies _ _ rfl
        hreperr hrB
    · refine no_enq_rep_trace raiseErrors resolve db r.id ?_
      intro bb hbb hbid q hok
      have hbr : bb = r := eq_of_mem_of_id_eq hrep
        (mem_orphan_batch.mp hbb).1 (mem_orphan_batch.mp hrB).1
        (by rw [hbid])
      rw [hbr, hres] at hok
      cases hok

/-- Witness for C5: the dangling reply (id 20) with an ambiguous file is
deleted and the run raises nothing. -/
theorem upgrade_tooManyFiles_deletes_row_only_witness :
    (dbEx.submissions.map Row.id).Nodup ∧
    (dbEx.replies.map Row.id).Nodup ∧
    (upgrade false resolveEx dbEx).errored = false ∧
    Row.mk 20 "dup" (some 9) ∉ (upgrade false resolveEx dbEx).replies := by
  refine ⟨by decide, by decide, by decide, ?_⟩
  exact ((upgrade_tooManyFiles_deletes_row_only false resolveEx dbEx
    (by decide) (by decide) (by decide)).2.2 (Row.mk 20 "dup" (some 9))
      (by decide) (by decide)).1

/-- The database as the migration leaves it. -/
def afterUpgradeDB (raiseErrors : Bool) (resolve : String → ResolveResult)
    (db : DB) : DB :=
  { sources := db.sources
    submissions := (upgrade raiseErrors resolve db).submissions
    replies := (upgrade raiseErrors resolve db).replies }

/-- After an error-free run the orphan query comes back empty on both
tables. -/
theorem batch_empty_after_no_err (raiseErrors : Bool)
    (resolve : String → ResolveResult) (db : DB)
    (hne : (upgrade raiseErrors resolve db).errored = false) :
    raw_sql_grab_orphaned_objects db.sources
        (upgrade raiseErrors resolve db).submissions = [] ∧
    raw_sql_grab_orphaned_objects db.sources
        (upgrade raiseErrors resolve db).replies = [] := by
  obtain ⟨hsuberr, hreperr⟩ := upgrade_errored_false_parts hne
  have hkeysub : ∀ x ∈ (upgrade raiseErrors resolve db).submissions,
      notInSources db.sources x = false ∧ isNullSource x = false := by
    intro x hx
    rw [upgrade_submissions_eq, subLoopState_table_of_no_err hsuberr] at hx
    obtain ⟨hxT, hall⟩ := List.mem_filter.mp hx
    rw [List.all_eq_true] at hall
    have hnotB : x ∉ raw_sql_grab_orphaned_objects db.sources
        db.submissions := by
      intro hxB
      have := hall x hxB
      simp at this
    constructor
    · by_contra hp
      exact hnotB (mem_orphan_batch.mpr
        ⟨hxT, Or.inl (by simpa using hp)⟩)
    · by_contra hp
      exact hnotB (mem_orphan_batch.mpr
        ⟨hxT, Or.inr (by simpa using hp)⟩)
  have hkeyrep : ∀ x ∈ (upgrade raiseErrors resolve db).replies,
      notInSources db.sources x = false ∧ isNullSource x = false := by
    intro x hx
    rw [upgrade_replies_eq_of_sub_ok raiseErrors hsuberr,
      repLoopState_table_of_no_err hreperr] at hx
    obtain ⟨hxT, hall⟩ := List.mem_filter.mp hx
    rw [List.all_eq_true] at hall
    have hnotB : x ∉ raw_sql_grab_orphaned_objects db.sources
        db.replies := by
      intro hxB
      have := hall x hxB
      simp at this
    constructor
    · by_contra hp
      exact hnotB (mem_orphan_batch.mpr
        ⟨hxT, Or.inl (by simpa using hp)⟩)
    · by_contra hp
      exact hnotB (mem_orphan_batch.mpr
        ⟨hxT, Or.inr (by simpa using hp)⟩)
  constructor
  · unfold raw_sql_grab_orphaned_objects
    rw [List.filter_eq_nil_iff.mpr
        (fun x hx => by simp [(hkeysub x hx).1]),
      List.filter_eq_nil_iff.mpr
        (fun x hx => by simp [(hkeysub x hx).1, (hkeysub x hx).2]),
      List.nil_append]
  · unfold raw_sql_grab_orphaned_objects
    rw [List.filter_eq_nil_iff.mpr
        (fun x hx => by simp [(hkeyrep x hx).1]),
      List.filter_eq_nil_iff.mpr
        (fun x hx => by simp [(hkeyrep x hx).1, (hkeyrep x hx).2]),
      List.nil_append]

/-- Claim C6: immediately after an error-free run, the orphan query is
empty on both tables and a second run deletes nothing, enqueues nothing,
and leaves both tables as they are. -/
theorem upgrade_idempotent (raiseErrors : Bool)
    (resolve : String → ResolveResult) (db : DB)
    (hne : (upgrade raiseErrors resolve db).errored = false) :
    raw_sql_grab_orphaned_objects
        (afterUpgradeDB raiseErrors resolve db).sources
        (afterUpgradeDB raiseErrors resolve db).submissions = [] ∧
    raw_sql_grab_orphaned_objects
        (afterUpgradeDB raiseErrors resolve db).sources
        (afterUpgradeDB raiseErrors resolve db).replies = [] ∧
    (upgrade raiseErrors resolve
      (afterUpgradeDB raiseErrors resolve db)).trace = [] ∧
    (upgrade raiseErrors resolve
      (afterUpgradeDB raiseErrors resolve db)).tasks = [] ∧
    (upgrade raiseErrors resolve
        (afterUpgradeDB raiseErrors resolve db)).submissions =
      (afterUpgradeDB raiseErrors resolve db).submissions ∧
    (upgrade raiseErrors resolve
        (afterUpgradeDB raiseErrors resolve db)).replies =
      (afterUpgradeDB raiseErrors resolve db).replies := by
  obtain ⟨hb1, hb2⟩ := batch_empty_after_no_err raiseErrors resolve db hne
  have hs1 : subLoopState resolve (afterUpgradeDB raiseErrors resolve db) =
      ⟨(afterUpgradeDB raiseErrors resolve db).submissions, [], [], false⟩ := by
    unfold subLoopState
    rw [show (afterUpgradeDB raiseErrors resolve db).sources = db.sources
      from rfl]
    rw [show (afterUpgradeDB raiseErrors resolve db).submissions =
      (upgrade raiseErrors resolve db).submissions from rfl, hb1]
    rfl
  have hr1 : repLoopState resolve (afterUpgradeDB raiseErrors resolve db) =
      ⟨(afterUpgradeDB raiseErrors resolve db).replies, [], [], false⟩ := by
    unfold repLoopState
    rw [hs1]
    rw [show (afterUpgradeDB raiseErrors resolve db).sources = db.sources
      from rfl]
    rw [show (afterUpgradeDB raiseErrors resolve db).replies =
      (upgrade raiseErrors resolve db).replies from rfl, hb2]
    rfl
  have hup := @upgrade_of_sub_ok resolve
    (afterUpgradeDB raiseErrors resolve db) raiseErrors (by rw [hs1])
  refine ⟨hb1, hb2, ?_, ?_, ?_, ?_⟩
  · rw [hup, hr1]
  · rw [hup, hr1]
  · rw [hup, hs1]
  · rw [hup, hr1]

/-- Witness for C6: rerunning on the cleaned example database produces an
empty trace. -/
theorem upgrade_idempotent_witness :
    (upgrade false resolveEx dbEx).errored = false ∧
    (upgrade false resolveEx (afterUpgradeDB false resolveEx dbEx)).trace
      = [] := by
  refine ⟨by decide, ?_⟩
  exact (upgrade_idempotent false resolveEx dbEx (by decide)).2.2.1

theorem countP_enq_batchTrace_other (resolve : String → ResolveResult)
    {t tb : Tbl} (hne : tb ≠ t) (i : Int) (rs : List Row) :
    (batchTrace resolve t rs).countP (isEnqFor tb i) = 0 := by
  rw [List.countP_eq_zero]
  intro e he
  have htag := mem_batchTrace_tag he
  cases e with
  | del t' j => simp [isEnqFor]
  | enq t' j q =>
      have ht' : t' = t := htag
      subst ht'
      have hbeq : (t' == tb) = false :=
        beq_eq_false_iff_ne.mpr (Ne.symm hne)
      simp [isEnqFor, hbeq]

/-- Claim C8: in the event trace of any run, every erase-task enqueue is
preceded by a deletion of the same row from the same table, at most one
enqueue fires per row, and a row for which an enqueue fired never remains
in its table. -/
theorem upgrade_delete_before_enqueue (raiseErrors : Bool)
    (resolve : String → ResolveResult) (db : DB)
    (hsub : (db.submissions.map Row.id).Nodup)
    (hrep : (db.replies.map Row.id).Nodup) :
    enqPreceded [] (upgrade raiseErrors resolve db).trace = true ∧
    (∀ (tb : Tbl) (i : Int),
      (upgrade raiseErrors resolve db).trace.countP (isEnqFor tb i) ≤ 1) ∧
    (∀ (i : Int) (p : String),
      Event.enq Tbl.submissions i p ∈ (upgrade raiseErrors resolve db).trace →
        ∀ x ∈ (upgrade raiseErrors resolve db).submissions, x.id ≠ i) ∧
    (∀ (i : Int) (p : String),
      Event.enq Tbl.replies i p ∈ (upgrade raiseErrors resolve db).trace →
        ∀ x ∈ (upgrade raiseErrors resolve db).replies, x.id ≠ i) := by
  refine ⟨?_, ?_, ?_, ?_⟩
  · rw [upgrade_trace, enqPreceded_append]
    by_cases he : (subLoopState resolve db).errored = true <;>
      simp [he, enqPreceded_batchTrace, enqPreceded]
  · intro tb i
    rw [upgrade_trace, List.countP_append]
    cases tb with
    | submissions =>
        have h1 : (batchTrace resolve Tbl.submissions
            (raw_sql_grab_orphaned_objects db.sources
              db.submissions)).countP (isEnqFor Tbl.submissions i) ≤ 1 :=
          le_trans (countP_enq_batchTrace resolve Tbl.submissions
              Tbl.submissions i _)
            (countP_id_batch_le_one hsub i)
        have h2 : (if (subLoopState resolve db).errored = true
              then ([] : List Event)
              else batchTrace resolve Tbl.replies
                (raw_sql_grab_orphaned_objects db.sources
                  db.replies)).countP (isEnqFor Tbl.submissions i) = 0 := by
          by_cases he : (subLoopState resolve db).errored = true
          · simp [he]
          · rw [if_neg he]
            exact countP_enq_batchTrace_other resolve (by decide) i _
        omega
    | replies =>
        have h1 : (batchTrace resolve Tbl.submissions
            (raw_sql_grab_orphaned_objects db.sources
              db.submissions)).countP (isEnqFor Tbl.replies i) = 0 :=
          countP_enq_batchTrace_other resolve (by decide) i _
        have h2 : (if (subLoopState resolve db).errored = true
              then ([] : List Event)
              else batchTrace resolve Tbl.replies
                (raw_sql_grab_orphaned_objects db.sources
                  db.replies)).countP (isEnqFor Tbl.replies i) ≤ 1 := by
          by_cases he : (subLoopState resolve db).errored = true
          · simp [he]
          · rw [if_neg he]
            exact le_trans (countP_enq_batchTrace resolve Tbl.replies
                Tbl.replies i _)
              (countP_id_batch_le_one hrep i)
        omega
  · intro i p hmem x hx
    rw [upgrade_trace] at hmem
    rcases List.mem_append.mp hmem with h1 | h2
    · rw [upgrade_submissions_eq] at hx
      unfold subLoopState at hx
      exact enq_in_trace_id_deleted resolve Tbl.submissions i p _ _ rfl h1 x hx
    · by_cases he : (subLoopState resolve db).errored = true
      · rw [if_pos he] at h2
        cases h2
      · rw [if_neg he] at h2
        exact Tbl.noConfusion (enq_mem_batchTrace h2).1
  · intro i p hmem x hx
    rw [upgrade_trace] at hmem
    rcases List.mem_append.mp hmem with h1 | h2
    · exact Tbl.noConfusion (enq_mem_batchTrace h1).1
    · by_cases he : (subLoopState resolve db).errored = true
      · rw [if_pos he] at h2
        cases h2
      · rw [if_neg he] at h2
        rw [upgrade_replies_eq_of_sub_ok raiseErrors (by simpa using he)]
          at hx
        unfold repLoopState at hx
        exact enq_in_trace_id_deleted resolve Tbl.replies i p _ _ rfl h2 x hx

/-- Witness for C8: on the example run every enqueue is preceded by the
row's deletion. -/
theorem upgrade_delete_before_enqueue_witness :
    (dbEx.submissions.map Row.id).Nodup ∧
    (dbEx.replies.map Row.id).Nodup ∧
    enqPreceded [] (upgrade false resolveEx dbEx).trace = true := by
  refine ⟨by decide, by decide, ?_⟩
  exact (upgrade_delete_before_enqueue false resolveEx dbEx (by decide)
    (by decide)).1

/-- Counterexample to C3 as stated: in best-effort mode the unclassified
error on orphan submission 11 prevents the later orphan submission 12 and
the orphan reply 20 from being processed — both remain in their tables,
although the outer handler swallows the error. -/
theorem upgrade_best_effort_continues_counterexample :
    Row.mk 12 "f1" (some 3) ∈
        raw_sql_grab_orphaned_objects dbErr.sources dbErr.submissions ∧
    Row.mk 20 "f2" none ∈
        raw_sql_grab_orphaned_objects dbErr.sources dbErr.replies ∧
    (upgrade false resolveEx dbErr).errored = true ∧
    Row.mk 12 "f1" (some 3) ∈ (upgrade false resolveEx dbErr).submissions ∧
    Row.mk 20 "f2" none ∈ (upgrade false resolveEx dbErr).replies := by
  decide

/-- Claim C3 (amended): in best-effort mode an unclassified error while
processing one submission orphan stops all further processing — the later
orphan submissions survive and the replies table is left untouched — but
the error does not propagate to the caller. -/
theorem upgrade_best_effort_error_stops_batch
    (resolve : String → ResolveResult) (db : DB) (l1 l2 : List Row) (b : Row)
    (hsub : (db.submissions.map Row.id).Nodup)
    (hsplit : raw_sql_grab_orphaned_objects db.sources db.submissions =
      l1 ++ b :: l2)
    (hpre : l1.any (fun r => isErr (resolve r.filename)) = false)
    (hb : resolve b.filename = ResolveResult.err) :
    (upgrade false resolve db).raised = false ∧
    (upgrade false resolve db).errored = true ∧
    (upgrade false resolve db).replies = db.replies ∧
    ∀ x ∈ l2, x ∈ (upgrade false resolve db).submissions := by
  have h := upgrade_error_in_sub_batch false resolve db l1 l2 b hsub hsplit
    hpre hb
  exact ⟨h.1, h.2.1, h.2.2.1, h.2.2.2⟩

/-- Witness for C3 (amended) at the error database: the replies table
comes through the aborted run untouched. -/
theorem upgrade_best_effort_error_stops_batch_witness :
    (dbErr.submissions.map Row.id).Nodup ∧
    raw_sql_grab_orphaned_objects dbErr.sources dbErr.submissions =
      [] ++ Row.mk 11 "bad" (some 2) :: [Row.mk 12 "f1" (some 3)] ∧
    resolveEx "bad" = ResolveResult.err ∧
    (upgrade false resolveEx dbErr).replies = dbErr.replies := by
  refine ⟨by decide, by decide, by decide, ?_⟩
  exact (upgrade_best_effort_error_stops_batch resolveEx dbErr []
    [Row.mk 12 "f1" (some 3)] (Row.mk 11 "bad" (some 2)) (by decide)
    (by decide) (by decide) (by decide)).2.2.1

/-- Claim C7: in strict mode an unclassified error stops the run — later
orphan submissions survive and the replies table is untouched — and the
error propagates to the caller; in best-effort mode no error ever
propagates. -/
theorem upgrade_strict_propagates_error
    (resolve : String → ResolveResult) (db : DB) (l1 l2 : List Row) (b : Row)
    (hsub : (db.submissions.map Row.id).Nodup)
    (hsplit : raw_sql_grab_orphaned_objects db.sources db.submissions =
      l1 ++ b :: l2)
    (hpre : l1.any (fun r => isErr (resolve r.filename)) = false)
    (hb : resolve b.filename = ResolveResult.err) :
    (upgrade true resolve db).raised = true ∧
    (upgrade true resolve db).replies = db.replies ∧
    (∀ x ∈ l2, x ∈ (upgrade true resolve db).submissions) ∧
    (∀ (resolve2 : String → ResolveResult) (db2 : DB),
      (upgrade false resolve2 db2).raised = false) := by
  have h := upgrade_error_in_sub_batch true resolve db l1 l2 b hsub hsplit
    hpre hb
  exact ⟨h.1, h.2.2.1, h.2.2.2,
    fun resolve2 db2 => upgrade_false_raised resolve2 db2⟩

/-- Witness for C7: on the error database the strict-mode run re-raises. -/
theorem upgrade_strict_propagates_error_witness :
    (dbErr.submissions.map Row.id).Nodup ∧
    (upgrade true resolveEx dbErr).raised = true := by
  refine ⟨by decide, ?_⟩
  exact (upgrade_strict_propagates_error resolveEx dbErr []
    [Row.mk 12 "f1" (some 3)] (Row.mk 11 "bad" (some 2)) (by decide)
    (by decide) (by decide) (by decide)).1

end SecureDrop
